import Mathlib

/-!
# LexiLoop AI service: content validator and story-generation cache, verified

A shallow embedding of the quality-validation engine
(`src/ai-service/src/content_validator/validator.py`) and of the
generation-result cache logic
(`src/ai-service/src/story_generator/generator.py`, orchestrated by
`src/ai-service/main.py`).

Texts are `List Char` (Python `str` restricted to its ASCII behaviour, which
is the domain the heuristics are written for); scores are exact rationals
(`ℚ`) in place of Python floats — every constant in the source is a short
decimal, so all arithmetic is exact and the embedding is faithful.
A Python operation that can raise (the grammar scorer divides by a count
that can be zero) is embedded as an `Option`, with `none` for the raise.
-/

namespace LexiLoop

/-! ## Python string primitives used by the service -/

/-- Python whitespace (ASCII): space, tab, newline, carriage return,
vertical tab, form feed.  Used by `str.strip()` and `str.split()`. -/
def isPySpace (c : Char) : Bool := c = ' ' || (9 ≤ c.toNat && c.toNat ≤ 13)

/-- Python `str.strip()`: drop leading and trailing whitespace. -/
def pyStrip (s : List Char) : List Char :=
  ((s.dropWhile isPySpace).reverse.dropWhile isPySpace).reverse

/-- Single left-to-right scan splitting a string at every character
satisfying `p`; `cur` holds the characters of the fragment being built,
most recent first. -/
def splitOnPredGo (p : Char → Bool) : List Char → List Char → List (List Char)
  | [], cur => [cur.reverse]
  | c :: cs, cur =>
    if p c then cur.reverse :: splitOnPredGo p cs []
    else splitOnPredGo p cs (c :: cur)

/-- Split a string at every character satisfying `p`, keeping empty
fragments (the behaviour of `re.split` on a single-character class).
Always returns at least one fragment, like `re.split`. -/
def splitOnPred (p : Char → Bool) (l : List Char) : List (List Char) :=
  splitOnPredGo p l []

/-- Sentence separators of the validator: `re.split(r'[.!?]+', ...)`. -/
def isSentSep (c : Char) : Bool := c = '.' || c = '!' || c = '?'

/-- The raw fragment list `re.split(r'[.!?]+', content)` produces.
Splitting on single separators keeps extra empty fragments compared to
splitting on runs; every use in the source either filters the empty
fragments out or only tests the list for non-emptiness (which holds for
both forms), so the two are observationally equal. -/
def sentencesRaw (t : List Char) : List (List Char) := splitOnPred isSentSep t

/-- `[s.strip() for s in re.split(r'[.!?]+', content) if s.strip()]`. -/
def sentencesClean (t : List Char) : List (List Char) :=
  ((sentencesRaw t).map pyStrip).filter (fun s => !s.isEmpty)

/-- Python `str.lower()` (ASCII). -/
def lowerL (s : List Char) : List Char := s.map Char.toLower

/-- `startsWithList p s` : is `p` a leading block of `s`? -/
def startsWithList : List Char → List Char → Bool
  | [], _ => true
  | _ :: _, [] => false
  | p :: ps, c :: cs => p == c && startsWithList ps cs

/-- Python `pat in t` : plain substring containment. -/
def containsSub (t pat : List Char) : Bool :=
  (List.range (t.length + 1)).any (fun i => startsWithList pat (t.drop i))

/-- Python `str.split()` with no argument: split on whitespace runs,
discarding empty fragments. -/
def pySplitWs (t : List Char) : List (List Char) :=
  (splitOnPred isPySpace t).filter (fun s => !s.isEmpty)

/-- A regex word character (`\w` over ASCII): letter, digit or underscore. -/
def isWordChar (c : Char) : Bool := c.isAlphanum || c = '_'

/-- Whether position `i` of `t` holds a word character
(out-of-range counts as non-word, matching the edges rule of `\b`). -/
def wordCharAt (t : List Char) (i : Nat) : Bool :=
  match t.drop i with
  | [] => false
  | c :: _ => isWordChar c

/-- The regex word boundary `\b` at position `i` (between `i-1` and `i`):
exactly one of the two neighbouring positions holds a word character. -/
def boundaryAt (t : List Char) (i : Nat) : Bool :=
  (if i = 0 then false else wordCharAt t (i - 1)) != wordCharAt t i

/-- `re.search(r'\b' + re.escape(w) + r'\b', t)`: the literal `w` occurs in
`t` at some position with a word boundary at both ends. -/
def wordFound (t w : List Char) : Bool :=
  (List.range (t.length + 1)).any
    (fun i => startsWithList w (t.drop i) && boundaryAt t i && boundaryAt t (i + w.length))

/-- `endsWithList s suf` : is `suf` a trailing block of `s`? -/
def endsWithList (s suf : List Char) : Bool := startsWithList suf.reverse s.reverse

/-! ## ContentValidator (`content_validator/validator.py`) -/

/-- The vowel set of the syllable estimator. -/
def isVowel (c : Char) : Bool := c = 'a' || c = 'e' || c = 'i' || c = 'o' || c = 'u' || c = 'y'

/-- `re.sub(r'(ed|es|s)$', '', word)`: remove one trailing `ed`, `es` or
`s` suffix (the alternatives cannot overlap at the string end, so the
leftmost-match rule reduces to this conditional). -/
def dropSuffixEdEsS (w : List Char) : List Char :=
  if endsWithList w ['e', 'd'] then w.take (w.length - 2)
  else if endsWithList w ['e', 's'] then w.take (w.length - 2)
  else if endsWithList w ['s'] then w.take (w.length - 1)
  else w

/-- The counting loop of `_count_syllables`: scan left to right carrying
the `prev_was_vowel` flag and the running `syllable_count`. -/
def vowelGroups : List Char → Bool → Nat → Nat
  | [], _, acc => acc
  | c :: cs, prev, acc =>
    vowelGroups cs (isVowel c) (if isVowel c && !prev then acc + 1 else acc)

/-- `ContentValidator._count_syllables`. -/
def count_syllables (w : List Char) : Nat :=
  let w1 := pyStrip (lowerL w)
  if w1.isEmpty then 0
  else
    let w2 := dropSuffixEdEsS w1
    let n := vowelGroups w2 false 0
    let n1 := if endsWithList w2 ['e'] && decide (1 < n) then n - 1 else n
    max 1 n1

/-- The fixed common-word list of `ContentValidator.__init__`. -/
def commonWords : List (List Char) :=
  (["the", "be", "to", "of", "and", "a", "in", "that", "have",
    "i", "it", "for", "not", "on", "with", "he", "as", "you",
    "do", "at", "this", "but", "his", "by", "from", "they",
    "she", "her", "or", "an", "will", "my", "one", "all",
    "would", "there", "their", "what", "so", "up", "out",
    "if", "about", "who", "get", "which", "go", "me", "when",
    "make", "can", "like", "time", "no", "just", "him", "know",
    "take", "people", "into", "year", "your", "good", "some",
    "could", "them", "see", "other", "than", "then", "now",
    "look", "only", "come", "its", "over", "think", "also",
    "back", "after", "use", "two", "how", "our", "work",
    "first", "well", "way", "even", "new", "want", "because",
    "any", "these", "give", "day", "most", "us"]).map String.data

/-- `ContentValidator._check_vocabulary_coverage`. -/
def check_vocabulary_coverage (content : List Char) (vocabulary : List (List Char)) : ℚ :=
  if vocabulary.isEmpty then 1
  else
    let contentLower := lowerL content
    let wordsFound := vocabulary.countP (fun w => wordFound contentLower (lowerL w))
    (wordsFound : ℚ) / (vocabulary.length : ℚ)

/-- `ContentValidator._check_readability`. -/
def check_readability (content : List Char) : ℚ :=
  let sents := sentencesClean content
  if sents.isEmpty then 0
  else
    let allWords := (sents.map pySplitWs).flatten
    let totalWords := allWords.length
    let totalSyllables := (allWords.map count_syllables).sum
    let complexWords := allWords.countP
      (fun w => decide (2 < count_syllables w) && !(commonWords.contains (lowerL w)))
    if totalWords = 0 then 0
    else
      let avgSentenceLength : ℚ := (totalWords : ℚ) / (sents.length : ℚ)
      let avgSyllables : ℚ := (totalSyllables : ℚ) / (totalWords : ℚ)
      let complexityRatio : ℚ := (complexWords : ℚ) / (totalWords : ℚ)
      let sentenceScore := max 0 (1 - |avgSentenceLength - 15| / 15)
      let syllableScore := max 0 (1 - |avgSyllables - 2| / 2)
      let complexityScore := max 0 (1 - complexityRatio)
      min 1 ((sentenceScore + syllableScore + complexityScore) / 3)

/-- Transition-word list of `_check_coherence`. -/
def transitionWords : List (List Char) :=
  (["however", "therefore", "meanwhile", "then", "next", "finally",
    "first", "second", "later", "after", "before"]).map String.data

/-- Pronoun list of `_check_coherence`. -/
def pronounWords : List (List Char) :=
  (["he", "she", "it", "they", "this", "that", "these", "those"]).map String.data

/-- Connector list of `_check_coherence`. -/
def connectorWords : List (List Char) :=
  (["and", "but", "or", "so", "because", "since", "although", "while"]).map String.data

/-- `ContentValidator._check_coherence`. -/
def check_coherence (content : List Char) : ℚ :=
  let sents := sentencesClean content
  if sents.length < 3 then 3/10
  else
    let contentLower := lowerL content
    let transitionCount := transitionWords.countP (fun w => containsSub contentLower w)
    let pronounCount := pronounWords.countP (fun w => containsSub contentLower w)
    let connectorCount := connectorWords.countP (fun w => containsSub contentLower w)
    let score : ℚ := 5/10 + min (2/10) ((transitionCount : ℚ) * (5/100))
      + min (15/100) ((pronounCount : ℚ) * (2/100))
      + min (15/100) ((connectorCount : ℚ) * (3/100))
    min 1 score

/-- `[.!?]` immediately followed by an ASCII letter somewhere in the text:
`re.search(r'[.!?][a-zA-Z]', content)`. -/
def hasBadSpacing : List Char → Bool
  | [] => false
  | [_] => false
  | a :: b :: rest => (isSentSep a && b.isAlpha) || hasBadSpacing (b :: rest)

/-- `ContentValidator._check_basic_grammar`.  `none` models the
`ZeroDivisionError` the Python raises when the text has no non-empty
sentence fragment: `re.split` never returns an empty list, so the
`if sentences:` guard always passes and `capitalized_sentences` is divided
by the count of non-empty fragments, which can be zero. -/
def check_basic_grammar (content : List Char) : Option ℚ :=
  let raw := sentencesRaw content
  let capitalized := raw.countP (fun s =>
    !(pyStrip s).isEmpty &&
      (match pyStrip s with
       | [] => false
       | c :: _ => c.isUpper))
  let nonEmptyCount := (raw.filter (fun s => !(pyStrip s).isEmpty)).length
  if nonEmptyCount = 0 then none
  else
    let g1 : ℚ := 1 * ((capitalized : ℚ) / (nonEmptyCount : ℚ))
    let g2 := if content.contains '.' then g1 else g1 * (8/10)
    let g3 := if hasBadSpacing content then g2 * (9/10) else g2
    let allWords := pySplitWs content
    let g4 :=
      if !allWords.isEmpty && decide ((30 : ℚ) < (allWords.length : ℚ) / (nonEmptyCount : ℚ))
      then g3 * (8/10) else g3
    some (max 0 g4)

/-- Issue tags appended by `_comprehensive_validation`, named after the
Python message strings ("Content too short", "Content too long",
"Low vocabulary coverage: {v:.2f}" with its numeric value,
"Poor readability", "Poor coherence", "Grammar issues detected"). -/
inductive Issue where
  | contentTooShort
  | contentTooLong
  | lowVocabularyCoverage (coverage : ℚ)
  | poorReadability
  | poorCoherence
  | grammarIssues
deriving DecidableEq, Repr

/-- The `ValidationResult` dataclass.  As in the source, the grammar score
is not one of the stored fields. -/
structure ValidationResult where
  is_valid : Bool
  quality_score : ℚ
  issues : List Issue
  vocabulary_coverage : ℚ
  readability_score : ℚ
  coherence_score : ℚ
deriving DecidableEq, Repr

instance : Inhabited ValidationResult := ⟨⟨false, 0, [], 0, 0, 0⟩⟩

/-- `ContentValidator._comprehensive_validation`.  `none` models the
propagated grammar-scorer exception. -/
def comprehensive_validation (content : List Char) (vocabulary : List (List Char)) :
    Option ValidationResult :=
  let issues1 : List Issue :=
    (if (pyStrip content).length < 100 then [Issue.contentTooShort] else []) ++
    (if 1500 < (pyStrip content).length then [Issue.contentTooLong] else [])
  let vocabCoverage := check_vocabulary_coverage content vocabulary
  let issues2 := issues1 ++
    (if vocabCoverage < 8/10 then [Issue.lowVocabularyCoverage vocabCoverage] else [])
  let readabilityScore := check_readability content
  let issues3 := issues2 ++ (if readabilityScore < 1/2 then [Issue.poorReadability] else [])
  let coherenceScore := check_coherence content
  let issues4 := issues3 ++ (if coherenceScore < 6/10 then [Issue.poorCoherence] else [])
  match check_basic_grammar content with
  | none => none
  | some grammarScore =>
    let issues5 := issues4 ++ (if grammarScore < 7/10 then [Issue.grammarIssues] else [])
    let qualityScore := vocabCoverage * (3/10) + readabilityScore * (1/4)
      + coherenceScore * (1/4) + grammarScore * (1/5)
    some
      { is_valid := decide ((7/10 : ℚ) ≤ qualityScore) && decide (issues5.length ≤ 2)
        quality_score := qualityScore
        issues := issues5
        vocabulary_coverage := vocabCoverage
        readability_score := readabilityScore
        coherence_score := coherenceScore }

/-- `ContentValidator.validate`: the public entry point.  The Python wraps
the comprehensive validation in `try/except` and answers `(False, 0.0)`
when anything raises. -/
def validate (content : List Char) (vocabulary : List (List Char)) : Bool × ℚ :=
  match comprehensive_validation content vocabulary with
  | some r => (r.is_valid, r.quality_score)
  | none => (false, 0)

/-! ## StoryGenerator (`story_generator/generator.py`) -/

/-- Decimal digits, least significant first; the first argument is
structural fuel, sufficient whenever `n ≤ fuel`. -/
def natDigitsRevFuel : Nat → Nat → List Char
  | _, 0 => []
  | 0, _ + 1 => []
  | fuel + 1, n + 1 => Nat.digitChar ((n + 1) % 10) :: natDigitsRevFuel fuel ((n + 1) / 10)

/-- Decimal digits of `n`, least significant first. -/
def natDigitsRev (n : Nat) : List Char := natDigitsRevFuel n n

/-- Python `str(n)` for a natural number. -/
def natRepr (n : Nat) : List Char :=
  if n = 0 then ['0'] else (natDigitsRev n).reverse

/-- Python `str(d)` for an `int`. -/
def intRepr (d : Int) : List Char :=
  if d < 0 then '-' :: natRepr d.natAbs else natRepr d.toNat

/-- The escaping Python `repr` applies inside a single-quoted string
literal: backslash and the quote character are backslash-escaped.
(Python switches to double quotes when the string contains a single quote
and no double quote, and hex-escapes unprintable characters; this model
keeps the single-quote convention throughout, so it coincides with Python
exactly on words free of quotes and unprintables — the theorems that
depend on the exact encoding carry that hypothesis.) -/
def escapePy : List Char → List Char
  | [] => []
  | c :: cs =>
    (if c = '\\' then ['\\', '\\']
     else if c = '\'' then ['\\', '\'']
     else [c]) ++ escapePy cs

/-- Python `repr` of one string, as used when a list of strings is
formatted with an f-string. -/
def pyReprStr (s : List Char) : List Char := '\'' :: escapePy s ++ ['\'']

/-- Comma-space join of `repr`ed elements inside a Python list display. -/
def joinComma : List (List Char) → List Char
  | [] => []
  | [x] => x
  | x :: xs => x ++ ',' :: ' ' :: joinComma xs

/-- Python `repr` of a list of strings, i.e. what `f"{sorted_vocab}"`
interpolates. -/
def pyReprList (l : List (List Char)) : List Char :=
  '[' :: joinComma (l.map pyReprStr) ++ [']']

/-- Python `sorted(vocabulary)`: the lexicographically sorted permutation
(code-point order on characters, prefix-first on strings).  Python's sort
is stable, but distinct strings never compare equal, so the sorted list is
the unique sorted permutation and any correct sort computes it. -/
def sortStrings (v : List (List Char)) : List (List Char) :=
  List.insertionSort (· ≤ ·) v

/-- `StoryGenerator._generate_cache_key`, up to the final
`hashlib.md5(key_string.encode()).hexdigest()` step: this is the
`key_string` the digest is taken of.  MD5 is a deterministic function of
this string, so equal canonical strings always give equal cache keys;
the spec itself only promises distinct digests for distinct canonical
strings "with overwhelming probability". -/
def generate_cache_key (vocabulary : List (List Char)) (difficulty : Int)
    (story_type : List Char) : List Char :=
  pyReprList (sortStrings vocabulary) ++ '_' :: intRepr difficulty ++ '_' :: story_type

/-- The `Story` dataclass; `created_at` is the `datetime.now()` timestamp,
supplied here as an abstract clock value. -/
structure Story where
  content : List Char
  vocabulary_used : List (List Char)
  word_count : Nat
  difficulty : Int
  story_type : List Char
  cache_key : List Char
  created_at : Int
deriving DecidableEq, Repr

/-- The Redis store as seen through `get`/`setex`: an association list
keyed by the `"story:" + cache_key` strings, most recent binding first.
TTL expiry is enforced by the store, not by this core, and is not part of
the claims modelled here. -/
abbrev Cache := List (List Char × Story)

/-- `StoryGenerator._get_cached_story`. -/
def get_cached_story (cache : Cache) (key : List Char) : Option Story :=
  (cache.find? (fun e => e.1 == ("story:".data ++ key))).map (fun e => e.2)

/-- `StoryGenerator._cache_story` (a `setex` write). -/
def cache_story (cache : Cache) (story : Story) : Cache :=
  (("story:".data ++ story.cache_key), story) :: cache

/-- Observable steps of one generation request, in execution order. -/
inductive GenEvent where
  | cacheGet (key : List Char)
  | generatorCall
  | cacheSet (key : List Char)
  | validateCall
deriving DecidableEq, Repr

/-- `StoryGenerator.generate_story`.  The external text generator is an
oracle whose reply is the `generatedText` argument; `now` is the clock.
Returns the story, the updated cache, and the event trace. -/
def generate_story (cache : Cache) (vocabulary : List (List Char)) (difficulty : Int)
    (story_type : List Char) (generatedText : List Char) (now : Int) :
    Story × Cache × List GenEvent :=
  let key := generate_cache_key vocabulary difficulty story_type
  match get_cached_story cache key with
  | some s => (s, cache, [GenEvent.cacheGet key])
  | none =>
    let content := pyStrip generatedText
    let used := vocabulary.filter (fun w => containsSub (lowerL content) (lowerL w))
    let story : Story :=
      { content := content
        vocabulary_used := used
        word_count := (pySplitWs content).length
        difficulty := difficulty
        story_type := story_type
        cache_key := key
        created_at := now }
    (story, cache_story cache story, [GenEvent.cacheGet key, GenEvent.generatorCall, GenEvent.cacheSet key])

/-- The `/generate-story` endpoint of `main.py`: rejects an empty or
oversized vocabulary, calls `StoryGenerator.generate_story`, then runs
`ContentValidator.validate` on the produced content and turns an invalid
result into an HTTP 500 (`none` here).  The audio step is optional and
cannot affect the outcome, so it is not modelled. -/
def endpoint_generate_story (cache : Cache) (vocabulary : List (List Char)) (difficulty : Int)
    (story_type : List Char) (generatedText : List Char) (now : Int) :
    Option Story × Cache × List GenEvent :=
  if vocabulary.isEmpty || decide (20 < vocabulary.length) then (none, cache, [])
  else
    let r := generate_story cache vocabulary difficulty story_type generatedText now
    let v := validate r.1.content vocabulary
    (if v.1 then some r.1 else none, r.2.1, r.2.2 ++ [GenEvent.validateCall])

/-! ## Decimal-digit helpers used to reason about the cache key -/

/-- Numeric value of a decimal digit character. -/
def charDigitVal (c : Char) : Nat := c.toNat - ('0').toNat

/-- Value of a digit list, least significant digit first. -/
def valRev : List Char → Nat
  | [] => 0
  | c :: cs => charDigitVal c + 10 * valRev cs

/-- The ten decimal digit characters. -/
def digitChars : List Char := ['0', '1', '2', '3', '4', '5', '6', '7', '8', '9']

/-! ## Concrete inputs and their evaluated results, used as witnesses -/

/-- A 1504-character text: "Hi. " followed by 1500 copies of 'a'. -/
def longText : List Char := "Hi. ".data ++ List.replicate 1500 'a'

/-- The worked example text of the specification. -/
def exampleText : List Char :=
  ("The brave explorer decided to embark on an exciting adventure into the mysterious forest. She wanted to discover ancient secrets hidden deep within the woods. As she walked through the dense trees, every sound made her heart race with anticipation. The adventure was challenging, but she was determined to explore every corner and discover the truth about the mysterious legends she had heard.").data

/-- The vocabulary of the worked example. -/
def exampleVocab : List (List Char) :=
  (["adventure", "mysterious", "explore", "discover"]).map String.data

/-- `comprehensive_validation "Hi there." []`, evaluated. -/
def witnessResultHi : ValidationResult :=
  { is_valid := true
    quality_score := 32/45
    issues := [Issue.contentTooShort, Issue.poorCoherence]
    vocabulary_coverage := 1
    readability_score := 49/90
    coherence_score := 3/10 }

/-- `comprehensive_validation "Tom ran. Sue hid. All won." []`, evaluated. -/
def witnessShortResult : ValidationResult :=
  { is_valid := true
    quality_score := 137/180
    issues := [Issue.contentTooShort, Issue.poorCoherence]
    vocabulary_coverage := 1
    readability_score := 49/90
    coherence_score := 1/2 }

/-- `comprehensive_validation longText []`, evaluated. -/
def witnessLongResult : ValidationResult :=
  { is_valid := false
    quality_score := 109/180
    issues := [Issue.contentTooLong, Issue.poorCoherence, Issue.grammarIssues]
    vocabulary_coverage := 1
    readability_score := 47/90
    coherence_score := 3/10 }

/-! ## General lemmas about the scorers -/

theorem pyStrip_length_le (s : List Char) : (pyStrip s).length ≤ s.length := by
  unfold pyStrip
  rw [List.length_reverse]
  refine le_trans (List.dropWhile_sublist _).length_le ?_
  rw [List.length_reverse]
  exact (List.dropWhile_sublist _).length_le

theorem check_vocabulary_coverage_nonneg (t : List Char) (v : List (List Char)) :
    0 ≤ check_vocabulary_coverage t v := by
  unfold check_vocabulary_coverage
  split
  · norm_num
  · positivity

theorem check_vocabulary_coverage_le_one (t : List Char) (v : List (List Char)) :
    check_vocabulary_coverage t v ≤ 1 := by
  unfold check_vocabulary_coverage
  split
  · norm_num
  · exact div_le_one_of_le₀ (by exact_mod_cast List.countP_le_length _) (by positivity)

theorem min_one_div3_nonneg (a b c : ℚ) :
    0 ≤ min 1 ((max 0 a + max 0 b + max 0 c) / 3) := by
  refine le_min (by norm_num) ?_
  have ha := le_max_left (0 : ℚ) a
  have hb := le_max_left (0 : ℚ) b
  have hc := le_max_left (0 : ℚ) c
  linarith

theorem check_readability_nonneg (t : List Char) : 0 ≤ check_readability t := by
  simp only [check_readability]
  split
  · norm_num
  · split
    · norm_num
    · exact min_one_div3_nonneg _ _ _

theorem check_readability_le_one (t : List Char) : check_readability t ≤ 1 := by
  simp only [check_readability]
  split
  · norm_num
  · split
    · norm_num
    · exact min_le_left _ _

theorem coherence_base_le (x y z : ℚ) (hx : 0 ≤ x) (hy : 0 ≤ y) (hz : 0 ≤ z) :
    3/10 ≤ min 1 (5/10 + min (2/10) x + min (15/100) y + min (15/100) z) := by
  refine le_min (by norm_num) ?_
  have h1 : (0 : ℚ) ≤ min (2/10) x := le_min (by norm_num) hx
  have h2 : (0 : ℚ) ≤ min (15/100) y := le_min (by norm_num) hy
  have h3 : (0 : ℚ) ≤ min (15/100) z := le_min (by norm_num) hz
  linarith

theorem check_coherence_ge (t : List Char) : 3/10 ≤ check_coherence t := by
  simp only [check_coherence]
  split
  · norm_num
  · exact coherence_base_le _ _ _ (by positivity) (by positivity) (by positivity)

theorem check_coherence_nonneg (t : List Char) : 0 ≤ check_coherence t :=
  le_trans (by norm_num) (check_coherence_ge t)

theorem check_coherence_le_one (t : List Char) : check_coherence t ≤ 1 := by
  simp only [check_coherence]
  split
  · norm_num
  · exact min_le_left _ _

theorem check_basic_grammar_bounds (t : List Char) (g : ℚ)
    (h : check_basic_grammar t = some g) : 0 ≤ g ∧ g ≤ 1 := by
  unfold check_basic_grammar at h
  simp only [] at h
  by_cases hne : ((sentencesRaw t).filter (fun s => !(pyStrip s).isEmpty)).length = 0
  · rw [if_pos hne] at h
    exact Option.noConfusion h
  · rw [if_neg hne] at h
    rw [Option.some.injEq] at h
    subst h
    have hcap : (sentencesRaw t).countP (fun s =>
        !(pyStrip s).isEmpty &&
          (match pyStrip s with
           | [] => false
           | c :: _ => c.isUpper)) ≤
        ((sentencesRaw t).filter (fun s => !(pyStrip s).isEmpty)).length := by
      rw [← List.countP_eq_length_filter]
      refine List.countP_mono_left ?_
      intro s _ hs
      exact ((Bool.and_eq_true _ _).mp hs).1
    have hpos : (0 : ℚ) <
        (((sentencesRaw t).filter (fun s => !(pyStrip s).isEmpty)).length : ℚ) := by
      exact_mod_cast Nat.pos_of_ne_zero hne
    have hq0 : (0 : ℚ) ≤ (((sentencesRaw t).countP (fun s =>
        !(pyStrip s).isEmpty &&
          (match pyStrip s with
           | [] => false
           | c :: _ => c.isUpper))) : ℚ) /
        ((((sentencesRaw t).filter (fun s => !(pyStrip s).isEmpty)).length) : ℚ) := by
      positivity
    have hq1 : (((sentencesRaw t).countP (fun s =>
        !(pyStrip s).isEmpty &&
          (match pyStrip s with
           | [] => false
           | c :: _ => c.isUpper))) : ℚ) /
        ((((sentencesRaw t).filter (fun s => !(pyStrip s).isEmpty)).length) : ℚ) ≤ 1 :=
      div_le_one_of_le₀ (by exact_mod_cast hcap) (le_of_lt hpos)
    constructor
    · exact le_max_left _ _
    · refine max_le (by norm_num) ?_
      split_ifs <;> nlinarith [hq0, hq1]

/-! ## Evaluation lemmas for the 1504-character witness text

The elaborator cannot brute-force computations over a 1500-element list,
so the scorer values on `longText` are derived by rewriting: one lemma
per primitive, driven by the `List.replicate` block. -/

theorem replicate_1500_expand : List.replicate 1500 'a' = 'a' :: List.replicate 1499 'a' :=
  List.replicate_succ 'a' 1499

theorem longText_expand : longText = 'H' :: 'i' :: '.' :: ' ' :: List.replicate 1500 'a' := rfl

theorem splitOnPredGo_cons_neg (p : Char → Bool) (c : Char) (cs cur : List Char)
    (h : p c = false) : splitOnPredGo p (c :: cs) cur = splitOnPredGo p cs (c :: cur) := by
  simp [splitOnPredGo, h]

theorem splitOnPredGo_cons_pos (p : Char → Bool) (c : Char) (cs cur : List Char)
    (h : p c = true) : splitOnPredGo p (c :: cs) cur = cur.reverse :: splitOnPredGo p cs [] := by
  simp [splitOnPredGo, h]

theorem splitOnPredGo_replicate (p : Char → Bool) (c : Char) (h : p c = false) :
    ∀ (m : Nat) (cur : List Char),
      splitOnPredGo p (List.replicate m c) cur = [cur.reverse ++ List.replicate m c] := by
  intro m
  induction m with
  | zero => intro cur; simp [splitOnPredGo]
  | succ k ih =>
    intro cur
    rw [List.replicate_succ, splitOnPredGo_cons_neg _ _ _ _ h, ih]
    simp

theorem sentencesRaw_longText :
    sentencesRaw longText = [['H', 'i'], ' ' :: List.replicate 1500 'a'] := by
  show splitOnPredGo isSentSep longText [] = _
  rw [longText_expand,
    splitOnPredGo_cons_neg _ _ _ _ (by decide),
    splitOnPredGo_cons_neg _ _ _ _ (by decide),
    splitOnPredGo_cons_pos _ _ _ _ (by decide),
    splitOnPredGo_cons_neg _ _ _ _ (by decide),
    splitOnPredGo_replicate _ _ (by decide)]
  rfl

theorem dropWhile_replicate_neg (p : Char → Bool) (c : Char) (h : p c = false) (n : Nat) :
    List.dropWhile p (List.replicate n c) = List.replicate n c := by
  cases n with
  | zero => rfl
  | succ k => rw [List.replicate_succ, List.dropWhile_cons]; simp [h]

theorem pyStrip_replicate_a (n : Nat) :
    pyStrip (List.replicate n 'a') = List.replicate n 'a' := by
  unfold pyStrip
  rw [dropWhile_replicate_neg _ _ (by decide), List.reverse_replicate,
    dropWhile_replicate_neg _ _ (by decide), List.reverse_replicate]

theorem pyStrip_sp_replicate :
    pyStrip (' ' :: List.replicate 1500 'a') = List.replicate 1500 'a' := by
  unfold pyStrip
  rw [List.dropWhile_cons, if_pos (by decide : isPySpace ' ' = true),
    dropWhile_replicate_neg _ _ (by decide), List.reverse_replicate,
    dropWhile_replicate_neg _ _ (by decide), List.reverse_replicate]

theorem replicate_1500_nonempty : (List.replicate 1500 'a').isEmpty = false := by
  rw [replicate_1500_expand]; rfl

theorem pyStrip_longText : pyStrip longText = longText := by
  rw [show longText = ['H', 'i', '.', ' '] ++ List.replicate 1500 'a' from rfl]
  unfold pyStrip
  rw [show (['H', 'i', '.', ' '] : List Char) ++ List.replicate 1500 'a'
      = 'H' :: (['i', '.', ' '] ++ List.replicate 1500 'a') from rfl]
  rw [List.dropWhile_cons, if_neg (by decide)]
  rw [show ('H' : Char) :: (['i', '.', ' '] ++ List.replicate 1500 'a')
      = ['H', 'i', '.', ' '] ++ List.replicate 1500 'a' from rfl]
  rw [List.reverse_append, List.reverse_replicate]
  rw [replicate_1500_expand, List.cons_append, List.dropWhile_cons, if_neg (by decide),
    ← List.cons_append, ← replicate_1500_expand]
  rw [List.reverse_append, List.reverse_replicate, List.reverse_reverse]

theorem pyStrip_longText_length : (pyStrip longText).length = 1504 := by
  rw [pyStrip_longText, show longText = ['H', 'i', '.', ' '] ++ List.replicate 1500 'a' from rfl,
    List.length_append, List.length_replicate]
  rfl

theorem sentencesClean_longText :
    sentencesClean longText = [['H', 'i'], List.replicate 1500 'a'] := by
  unfold sentencesClean
  rw [sentencesRaw_longText, List.map_cons, List.map_cons, List.map_nil,
    pyStrip_sp_replicate, show pyStrip ['H', 'i'] = ['H', 'i'] from rfl,
    List.filter_cons, List.filter_cons]
  rw [if_pos (by decide : (!(['H', 'i'] : List Char).isEmpty) = true)]
  rw [if_pos (by rw [replicate_1500_nonempty]; rfl : (!(List.replicate 1500 'a').isEmpty) = true)]
  rfl

theorem pySplitWs_longText :
    pySplitWs longText = [['H', 'i', '.'], List.replicate 1500 'a'] := by
  have hsplit : splitOnPredGo isPySpace longText [] = [['H', 'i', '.'], List.replicate 1500 'a'] := by
    rw [longText_expand,
      splitOnPredGo_cons_neg _ _ _ _ (by decide),
      splitOnPredGo_cons_neg _ _ _ _ (by decide),
      splitOnPredGo_cons_neg _ _ _ _ (by decide),
      splitOnPredGo_cons_pos _ _ _ _ (by decide),
      splitOnPredGo_replicate _ _ (by decide)]
    rfl
  unfold pySplitWs
  rw [show splitOnPred isPySpace longText = splitOnPredGo isPySpace longText [] from rfl, hsplit]
  rw [List.filter_cons, if_pos (by decide : (!(['H', 'i', '.'] : List Char).isEmpty) = true),
    List.filter_cons, if_pos (by rw [replicate_1500_nonempty]; rfl
      : (!(List.replicate 1500 'a').isEmpty) = true), List.filter_nil]

theorem vowelGroups_replicate_a_true :
    ∀ (n : Nat) (acc : Nat), vowelGroups (List.replicate n 'a') true acc = acc := by
  intro n
  induction n with
  | zero => intro acc; rfl
  | succ k ih =>
    intro acc
    rw [List.replicate_succ]
    show vowelGroups (List.replicate k 'a') (isVowel 'a')
      (if isVowel 'a' && !true then acc + 1 else acc) = acc
    simpa using ih acc

theorem vowelGroups_replicate_a_false (n acc : Nat) :
    vowelGroups (List.replicate (n + 1) 'a') false acc = acc + 1 := by
  rw [List.replicate_succ]
  show vowelGroups (List.replicate n 'a') (isVowel 'a')
    (if isVowel 'a' && !false then acc + 1 else acc) = acc + 1
  simpa using vowelGroups_replicate_a_true n (acc + 1)

theorem count_syllables_replicate_a : count_syllables (List.replicate 1500 'a') = 1 := by
  have hlow : lowerL (List.replicate 1500 'a') = List.replicate 1500 'a' := by
    unfold lowerL
    rw [List.map_replicate]
    rfl
  have hed : endsWithList (List.replicate 1500 'a') ['e', 'd'] = false := by
    unfold endsWithList
    rw [List.reverse_replicate, replicate_1500_expand]; rfl
  have hes : endsWithList (List.replicate 1500 'a') ['e', 's'] = false := by
    unfold endsWithList
    rw [List.reverse_replicate, replicate_1500_expand]; rfl
  have hs : endsWithList (List.replicate 1500 'a') ['s'] = false := by
    unfold endsWithList
    rw [List.reverse_replicate, replicate_1500_expand]; rfl
  have he : endsWithList (List.replicate 1500 'a') ['e'] = false := by
    unfold endsWithList
    rw [List.reverse_replicate, replicate_1500_expand]; rfl
  have hdrop : dropSuffixEdEsS (List.replicate 1500 'a') = List.replicate 1500 'a' := by
    unfold dropSuffixEdEsS
    rw [hed, hes, hs]
    simp
  have hvg : vowelGroups (List.replicate 1500 'a') false 0 = 1 :=
    vowelGroups_replicate_a_false 1499 0
  unfold count_syllables
  simp only []
  rw [hlow, pyStrip_replicate_a, replicate_1500_nonempty,
    if_neg (Bool.false_ne_true), hdrop, hvg, he]
  rfl

theorem hasBadSpacing_cons_replicate_a :
    ∀ (n : Nat), hasBadSpacing ('a' :: List.replicate n 'a') = false := by
  intro n
  induction n with
  | zero => rfl
  | succ k ih =>
    rw [List.replicate_succ]
    show (isSentSep 'a' && Char.isAlpha 'a' || hasBadSpacing ('a' :: List.replicate k 'a')) = false
    rw [ih]
    rfl

theorem hasBadSpacing_longText : hasBadSpacing longText = false := by
  rw [longText_expand, replicate_1500_expand]
  show (isSentSep 'H' && Char.isAlpha 'i'
      || (isSentSep 'i' && Char.isAlpha '.'
      || (isSentSep '.' && Char.isAlpha ' '
      || (isSentSep ' ' && Char.isAlpha 'a'
      || hasBadSpacing ('a' :: List.replicate 1499 'a'))))) = false
  rw [hasBadSpacing_cons_replicate_a]
  rfl

theorem contains_dot_longText : longText.contains '.' = true := rfl

theorem check_coherence_longText : check_coherence longText = 3/10 := by
  unfold check_coherence
  rw [sentencesClean_longText]
  rfl

theorem check_basic_grammar_longText : check_basic_grammar longText = some (1/2) := by
  unfold check_basic_grammar
  simp only []
  rw [sentencesRaw_longText]
  have hp2 : pyStrip (' ' :: List.replicate 1500 'a') = List.replicate 1500 'a' :=
    pyStrip_sp_replicate
  have hcap : (([['H', 'i'], ' ' :: List.replicate 1500 'a'] : List (List Char)).countP (fun s =>
      !(pyStrip s).isEmpty &&
        (match pyStrip s with
         | [] => false
         | c :: _ => c.isUpper))) = 1 := by
    rw [List.countP_cons, List.countP_cons, List.countP_nil, hp2, replicate_1500_expand]
    rfl
  have hfil : (([['H', 'i'], ' ' :: List.replicate 1500 'a'] : List (List Char)).filter
      (fun s => !(pyStrip s).isEmpty)).length = 2 := by
    rw [List.filter_cons, List.filter_cons, hp2]
    rw [if_pos (by decide : (!(pyStrip (['H', 'i'] : List Char)).isEmpty) = true)]
    rw [if_pos (by rw [replicate_1500_nonempty]; rfl
      : (!(List.replicate 1500 'a').isEmpty) = true)]
    rfl
  rw [hcap, hfil, if_neg (by norm_num), contains_dot_longText, hasBadSpacing_longText,
    pySplitWs_longText]
  norm_num

theorem check_readability_longText : check_readability longText = 47/90 := by
  have hw : pySplitWs (List.replicate 1500 'a') = [List.replicate 1500 'a'] := by
    unfold pySplitWs
    rw [show splitOnPred isPySpace (List.replicate 1500 'a')
        = splitOnPredGo isPySpace (List.replicate 1500 'a') [] from rfl,
      splitOnPredGo_replicate _ _ (by decide), List.reverse_nil, List.nil_append,
      List.filter_cons,
      if_pos (by rw [replicate_1500_nonempty]; rfl
        : (!(List.replicate 1500 'a').isEmpty) = true), List.filter_nil]
  have hall : ((([['H', 'i'], List.replicate 1500 'a'] : List (List Char))).map
      pySplitWs).flatten = [['H', 'i'], List.replicate 1500 'a'] := by
    rw [List.map_cons, List.map_cons, List.map_nil, hw,
      show pySplitWs ['H', 'i'] = [['H', 'i']] from rfl,
      List.flatten_cons, List.flatten_cons, List.flatten_nil]
    rfl
  have hsyl : ((([['H', 'i'], List.replicate 1500 'a'] : List (List Char))).map
      count_syllables).sum = 2 := by
    rw [List.map_cons, List.map_cons, List.map_nil, count_syllables_replicate_a,
      show count_syllables ['H', 'i'] = 1 from rfl]
    rfl
  have hcpx : (([['H', 'i'], List.replicate 1500 'a'] : List (List Char)).countP
      (fun w => decide (2 < count_syllables w) && !(commonWords.contains (lowerL w)))) = 0 := by
    rw [List.countP_cons, List.countP_cons, List.countP_nil]
    rw [show (decide (2 < count_syllables (['H', 'i'] : List Char))) = false from rfl]
    rw [show (decide (2 < count_syllables (List.replicate 1500 'a'))) = false from by
      rw [count_syllables_replicate_a]; rfl]
    simp only [Bool.false_and, Bool.false_eq_true, if_false]
  unfold check_readability
  simp only []
  rw [sentencesClean_longText, hall, hsyl, hcpx]
  rw [show (([['H', 'i'], List.replicate 1500 'a'] : List (List Char))).isEmpty = false from rfl]
  rw [if_neg (Bool.false_ne_true)]
  rw [show (([['H', 'i'], List.replicate 1500 'a'] : List (List Char))).length = 2 from rfl]
  rw [if_neg (by norm_num : ¬(2 = 0))]
  have e1 : |(2 : ℚ)/2 - 15| = 14 := by
    rw [abs_of_nonpos (by norm_num)]
    norm_num
  have e2 : |((2 : ℕ) : ℚ)/((2 : ℕ) : ℚ) - 2| = 1 := by
    rw [abs_of_nonpos (by norm_num)]
    norm_num
  norm_num [max_def, min_def, e1, e2]

theorem comprehensive_validation_longText :
    comprehensive_validation longText [] = some witnessLongResult := by
  unfold comprehensive_validation
  simp only []
  rw [check_basic_grammar_longText]
  simp only []
  rw [pyStrip_longText_length,
    show check_vocabulary_coverage longText [] = 1 from rfl,
    check_readability_longText, check_coherence_longText]
  rw [if_neg (by norm_num : ¬(1504 < 100)), if_pos (by norm_num : 1500 < 1504)]
  rw [if_neg (by norm_num : ¬((1 : ℚ) < 8/10)), if_neg (by norm_num : ¬((47 : ℚ)/90 < 1/2)),
    if_pos (by norm_num : (3 : ℚ)/10 < 6/10), if_pos (by norm_num : (1 : ℚ)/2 < 7/10)]
  unfold witnessLongResult
  norm_num [ValidationResult.mk.injEq]

/-! ## Claim theorems -/

/-- C1: whenever the comprehensive validation returns a result, its
composite score is the 0.30/0.25/0.25/0.20 weighted sum of the four
sub-scores, lies in [0,1], and `is_valid` holds exactly when the composite
is at least 0.70 and at most 2 issues were recorded. -/
theorem quality_aggregator_spec (t : List Char) (v : List (List Char)) (r : ValidationResult)
    (h : comprehensive_validation t v = some r) :
    (∃ g, check_basic_grammar t = some g ∧
        r.quality_score = (3/10) * check_vocabulary_coverage t v
          + (1/4) * check_readability t + (1/4) * check_coherence t + (1/5) * g) ∧
    0 ≤ r.quality_score ∧ r.quality_score ≤ 1 ∧
    (r.is_valid = true ↔ (7/10 ≤ r.quality_score ∧ r.issues.length ≤ 2)) := by
  unfold comprehensive_validation at h
  simp only [] at h
  cases hg : check_basic_grammar t with
  | none =>
    rw [hg] at h
    exact Option.noConfusion h
  | some g =>
    rw [hg] at h
    simp only [] at h
    rw [Option.some.injEq] at h
    subst h
    obtain ⟨hg0, hg1⟩ := check_basic_grammar_bounds t g hg
    have hcov0 := check_vocabulary_coverage_nonneg t v
    have hcov1 := check_vocabulary_coverage_le_one t v
    have hrd0 := check_readability_nonneg t
    have hrd1 := check_readability_le_one t
    have hch0 := check_coherence_nonneg t
    have hch1 := check_coherence_le_one t
    refine ⟨⟨g, rfl, by ring⟩, by dsimp only; linarith, by dsimp only; linarith, ?_⟩
    dsimp only
    simp [Bool.and_eq_true, decide_eq_true_eq]

set_option maxRecDepth 100000 in
/-- C1 witness: the theorem applied to a concrete successful validation. -/
theorem quality_aggregator_spec_witness :
    0 ≤ witnessResultHi.quality_score ∧ witnessResultHi.quality_score ≤ 1 ∧
    (witnessResultHi.is_valid = true ↔
      (7/10 ≤ witnessResultHi.quality_score ∧ witnessResultHi.issues.length ≤ 2)) :=
  (quality_aggregator_spec ("Hi there.".data) [] witnessResultHi (by with_unfolding_all decide)).2

/-- C2: contrary to the spec, the grammar scorer does raise on the empty
string: `re.split` returns `[""]`, the `if sentences:` guard passes, and
`capitalized_sentences` is divided by the number of non-empty stripped
fragments, which is zero — a `ZeroDivisionError` that propagates out of
`_comprehensive_validation` (here: `none`). -/
theorem grammar_scorer_raises_on_empty :
    check_basic_grammar [] = none ∧ comprehensive_validation [] [] = none :=
  ⟨rfl, rfl⟩

/-- C5: vocabulary coverage is the found-count over the vocabulary size,
lies in [0,1], is 1 when every word occurs as a whole word, and an empty
vocabulary scores 1. -/
theorem vocabulary_coverage_spec (t : List Char) (v : List (List Char)) :
    (v ≠ [] → check_vocabulary_coverage t v =
      ((v.countP (fun w => wordFound (lowerL t) (lowerL w)) : ℚ) / (v.length : ℚ))) ∧
    0 ≤ check_vocabulary_coverage t v ∧ check_vocabulary_coverage t v ≤ 1 ∧
    ((∀ w ∈ v, wordFound (lowerL t) (lowerL w) = true) → check_vocabulary_coverage t v = 1) ∧
    check_vocabulary_coverage t [] = 1 := by
  refine ⟨?_, check_vocabulary_coverage_nonneg t v, check_vocabulary_coverage_le_one t v, ?_, rfl⟩
  · intro hv
    unfold check_vocabulary_coverage
    rw [if_neg (by simpa using hv)]
  · intro hall
    by_cases hv : v = []
    · subst hv; rfl
    · have hc : v.countP (fun w => wordFound (lowerL t) (lowerL w)) = v.length :=
        List.countP_eq_length.mpr hall
      unfold check_vocabulary_coverage
      rw [if_neg (by simpa using hv)]
      simp only [hc]
      rw [div_self]
      exact Nat.cast_ne_zero.mpr (by simpa [List.length_eq_zero] using hv)

/-- C5 witness: a concrete text containing its whole vocabulary. -/
theorem vocabulary_coverage_spec_witness :
    check_vocabulary_coverage ("A cat sat.".data) ["cat".data] =
      (((["cat".data] : List (List Char)).countP
          (fun w => wordFound (lowerL ("A cat sat.".data)) (lowerL w)) : ℚ) /
        ((["cat".data] : List (List Char)).length : ℚ)) ∧
    check_vocabulary_coverage ("A cat sat.".data) ["cat".data] = 1 :=
  ⟨(vocabulary_coverage_spec ("A cat sat.".data) ["cat".data]).1 (by decide),
   (vocabulary_coverage_spec ("A cat sat.".data) ["cat".data]).2.2.2.1 (by decide)⟩

/-- C6: the coherence scorer returns 0.3 below 3 sentences, and otherwise
0.5 plus capped bonuses of 0.05 per transition word, 0.02 per pronoun and
0.03 per connector present (case-insensitive substring search over the
whole text), clamped to 1; the result always lies in [0.3, 1]. -/
theorem coherence_spec (t : List Char) :
    check_coherence t =
      (if (sentencesClean t).length < 3 then (3/10 : ℚ)
       else min 1 ((5/10 : ℚ)
         + min (2/10) ((transitionWords.countP (fun w => containsSub (lowerL t) w) : ℚ) * (5/100))
         + min (15/100) ((pronounWords.countP (fun w => containsSub (lowerL t) w) : ℚ) * (2/100))
         + min (15/100) ((connectorWords.countP (fun w => containsSub (lowerL t) w) : ℚ) * (3/100)))) ∧
    3/10 ≤ check_coherence t ∧ check_coherence t ≤ 1 :=
  ⟨rfl, check_coherence_ge t, check_coherence_le_one t⟩

/-- C7, counterexample: a single space is a non-empty token, yet the
syllable estimator returns 0 for it, because the code first strips
whitespace (`word.lower().strip()`) and takes the `return 0` branch. -/
theorem count_syllables_whitespace_cex :
    count_syllables [' '] = 0 ∧ ([' '] : List Char) ≠ [] :=
  ⟨rfl, by decide⟩

/-- C7 as amended: after lower-casing and whitespace-stripping, an empty
result yields 0; otherwise the estimator strips one trailing
ed/es/s suffix, counts non-vowel-to-vowel transitions, applies the
silent-e decrement when the count exceeds 1, clamps at 1, and in
particular returns at least 1. -/
theorem count_syllables_spec (w : List Char) :
    (pyStrip (lowerL w) = [] → count_syllables w = 0) ∧
    (pyStrip (lowerL w) ≠ [] →
      1 ≤ count_syllables w ∧
      count_syllables w =
        max 1 (if endsWithList (dropSuffixEdEsS (pyStrip (lowerL w))) ['e']
                  && decide (1 < vowelGroups (dropSuffixEdEsS (pyStrip (lowerL w))) false 0)
               then vowelGroups (dropSuffixEdEsS (pyStrip (lowerL w))) false 0 - 1
               else vowelGroups (dropSuffixEdEsS (pyStrip (lowerL w))) false 0)) := by
  constructor
  · intro h
    simp only [count_syllables]
    rw [if_pos (by rw [h]; rfl)]
  · intro h
    simp only [count_syllables]
    rw [if_neg (by simpa using h)]
    exact ⟨le_max_left _ _, rfl⟩

/-- C7 witness: both branches of the amended statement at concrete tokens. -/
theorem count_syllables_spec_witness :
    count_syllables [' ', ' '] = 0 ∧ 1 ≤ count_syllables ("cat".data) :=
  ⟨(count_syllables_spec [' ', ' ']).1 (by decide),
   ((count_syllables_spec ("cat".data)).2 (by decide)).1⟩

/-- C8: whenever validation returns, a raw length under 100 characters
forces the "Content too short" issue (stripping only shortens the text),
and a stripped length over 1500 forces "Content too long". -/
theorem length_issue_spec (t : List Char) (v : List (List Char)) (r : ValidationResult)
    (h : comprehensive_validation t v = some r) :
    (t.length < 100 → Issue.contentTooShort ∈ r.issues) ∧
    (1500 < (pyStrip t).length → Issue.contentTooLong ∈ r.issues) := by
  unfold comprehensive_validation at h
  simp only [] at h
  cases hg : check_basic_grammar t with
  | none =>
    rw [hg] at h
    exact Option.noConfusion h
  | some g =>
    rw [hg] at h
    simp only [] at h
    rw [Option.some.injEq] at h
    subst h
    constructor
    · intro hlen
      have hs : (pyStrip t).length < 100 := lt_of_le_of_lt (pyStrip_length_le t) hlen
      dsimp only
      rw [if_pos hs]
      simp [List.mem_append]
    · intro hlen
      dsimp only
      rw [if_pos hlen]
      simp [List.mem_append]

set_option maxRecDepth 100000 in
/-- C8 witness: a 26-character text and a 1504-character text. -/
theorem length_issue_spec_witness :
    Issue.contentTooShort ∈ witnessShortResult.issues ∧
    Issue.contentTooLong ∈ witnessLongResult.issues :=
  ⟨(length_issue_spec ("Tom ran. Sue hid. All won.".data) [] witnessShortResult
      (by with_unfolding_all decide)).1 (by decide),
   (length_issue_spec longText [] witnessLongResult comprehensive_validation_longText).2
      (by rw [pyStrip_longText_length]; norm_num)⟩

set_option maxRecDepth 100000 in
/-- C9: the spec example text with its four-word vocabulary scores full
vocabulary coverage, is accepted, and its composite score 9541/10800
(≈ 0.883) is at least 0.70. -/
theorem example_story_spec :
    check_vocabulary_coverage exampleText exampleVocab = 1 ∧
    validate exampleText exampleVocab = (true, 9541/10800) ∧
    (7/10 : ℚ) ≤ 9541/10800 := by
  have hcov : check_vocabulary_coverage exampleText exampleVocab = 1 := by
    with_unfolding_all decide
  have hrd : check_readability exampleText = 461/540 := by with_unfolding_all decide
  have hch : check_coherence exampleText = 17/25 := by with_unfolding_all decide
  have hg : check_basic_grammar exampleText = some 1 := by with_unfolding_all decide
  have hlen : (pyStrip exampleText).length = 393 := by decide
  have hcomp : comprehensive_validation exampleText exampleVocab
      = some { is_valid := true, quality_score := 9541/10800, issues := [],
               vocabulary_coverage := 1, readability_score := 461/540,
               coherence_score := 17/25 } := by
    unfold comprehensive_validation
    simp only []
    rw [hg]
    simp only []
    rw [hlen, hcov, hrd, hch]
    rw [if_neg (by norm_num : ¬(393 < 100)), if_neg (by norm_num : ¬(1500 < 393))]
    rw [if_neg (by norm_num : ¬((1 : ℚ) < 8/10)),
      if_neg (by norm_num : ¬((461 : ℚ)/540 < 1/2)),
      if_neg (by norm_num : ¬((17 : ℚ)/25 < 6/10)), if_neg (by norm_num : ¬((1 : ℚ) < 7/10))]
    norm_num [ValidationResult.mk.injEq]
  refine ⟨hcov, ?_, by norm_num⟩
  unfold validate
  rw [hcomp]

/-- C10: the public entry point is total — it forwards a successful
validation verbatim and maps a raised internal exception (`none`) to
`(False, 0.0)`. -/
theorem validate_total_spec (t : List Char) (v : List (List Char)) :
    (comprehensive_validation t v = none → validate t v = (false, 0)) ∧
    (∀ r, comprehensive_validation t v = some r →
      validate t v = (r.is_valid, r.quality_score)) := by
  constructor
  · intro h
    unfold validate
    rw [h]
  · intro r h
    unfold validate
    rw [h]

set_option maxRecDepth 100000 in
/-- C10 witness: the raising case (empty text) and a returning case. -/
theorem validate_total_spec_witness :
    validate [] [] = (false, 0) ∧
    validate ("Hi there.".data) [] = (witnessResultHi.is_valid, witnessResultHi.quality_score) :=
  ⟨(validate_total_spec [] []).1 (by decide),
   (validate_total_spec ("Hi there.".data) []).2 witnessResultHi (by with_unfolding_all decide)⟩

/-! ## Cache-key lemmas (C4) -/

theorem charDigitVal_digitChar (m : Nat) (h : m < 10) :
    charDigitVal (Nat.digitChar m) = m := by
  interval_cases m <;> rfl

theorem valRev_natDigitsRevFuel :
    ∀ (fuel n : Nat), n ≤ fuel → valRev (natDigitsRevFuel fuel n) = n := by
  intro fuel
  induction fuel with
  | zero =>
    intro n h
    have : n = 0 := Nat.le_zero.mp h
    subst this
    rfl
  | succ f ih =>
    intro n h
    cases n with
    | zero => rfl
    | succ m =>
      have hdiv : (m + 1) / 10 ≤ f := by
        have := Nat.div_lt_self (Nat.succ_pos m) (by norm_num : 1 < 10)
        omega
      show valRev (Nat.digitChar ((m + 1) % 10) :: natDigitsRevFuel f ((m + 1) / 10)) = m + 1
      rw [valRev, charDigitVal_digitChar _ (Nat.mod_lt _ (by norm_num)), ih _ hdiv]
      exact Nat.mod_add_div (m + 1) 10

theorem valRev_natDigitsRev (n : Nat) : valRev (natDigitsRev n) = n :=
  valRev_natDigitsRevFuel n n le_rfl

theorem natRepr_inj {a b : Nat} (h : natRepr a = natRepr b) : a = b := by
  unfold natRepr at h
  by_cases ha : a = 0 <;> by_cases hb : b = 0
  · omega
  · rw [if_pos ha, if_neg hb] at h
    have h2 : natDigitsRev b = ['0'] := by
      have := congrArg List.reverse h
      simpa using this.symm
    have := valRev_natDigitsRev b
    rw [h2] at this
    simp [valRev, charDigitVal] at this
    omega
  · rw [if_neg ha, if_pos hb] at h
    have h2 : natDigitsRev a = ['0'] := by
      have := congrArg List.reverse h
      simpa using this
    have := valRev_natDigitsRev a
    rw [h2] at this
    simp [valRev, charDigitVal] at this
    omega
  · rw [if_neg ha, if_neg hb] at h
    have h2 : natDigitsRev a = natDigitsRev b := List.reverse_injective h
    have := valRev_natDigitsRev a
    rw [h2, valRev_natDigitsRev b] at this
    omega

theorem digitChar_mem_digitChars (m : Nat) (h : m < 10) : Nat.digitChar m ∈ digitChars := by
  interval_cases m <;> decide

theorem mem_natDigitsRevFuel :
    ∀ (fuel n : Nat) (c : Char), c ∈ natDigitsRevFuel fuel n → c ∈ digitChars := by
  intro fuel
  induction fuel with
  | zero =>
    intro n c hc
    cases n with
    | zero => exact absurd hc (by simp [natDigitsRevFuel])
    | succ m => exact absurd hc (by simp [natDigitsRevFuel])
  | succ f ih =>
    intro n c hc
    cases n with
    | zero => exact absurd hc (by simp [natDigitsRevFuel])
    | succ m =>
      rw [show natDigitsRevFuel (f + 1) (m + 1)
          = Nat.digitChar ((m + 1) % 10) :: natDigitsRevFuel f ((m + 1) / 10) from rfl] at hc
      rcases List.mem_cons.mp hc with h1 | h1
      · exact h1 ▸ digitChar_mem_digitChars _ (Nat.mod_lt _ (by norm_num))
      · exact ih _ _ h1

theorem mem_natRepr (n : Nat) (c : Char) (hc : c ∈ natRepr n) : c ∈ digitChars := by
  unfold natRepr at hc
  by_cases hn : n = 0
  · rw [if_pos hn] at hc
    have hc0 : c = '0' := by simpa using hc
    rw [hc0]
    decide
  · rw [if_neg hn] at hc
    exact mem_natDigitsRevFuel n n c (List.mem_reverse.mp hc)

theorem natRepr_head_digit (n : Nat) (c : Char) (t : List Char) (h : natRepr n = c :: t) :
    c ∈ digitChars :=
  mem_natRepr n c (h ▸ List.mem_cons_self c t)

theorem intRepr_inj {a b : Int} (h : intRepr a = intRepr b) : a = b := by
  unfold intRepr at h
  by_cases ha : a < 0 <;> by_cases hb : b < 0
  · rw [if_pos ha, if_pos hb] at h
    injection h with _ h2
    have := natRepr_inj h2
    omega
  · rw [if_pos ha, if_neg hb] at h
    cases hr : natRepr b.toNat with
    | nil =>
      rw [hr] at h
      exact absurd h (by simp)
    | cons c t =>
      rw [hr] at h
      injection h with h1 _
      exact absurd (natRepr_head_digit _ _ _ hr) (h1 ▸ by decide)
  · rw [if_neg ha, if_pos hb] at h
    cases hr : natRepr a.toNat with
    | nil => rw [hr] at h; exact absurd h (by simp)
    | cons c t =>
      rw [hr] at h
      injection h with h1 _
      exact absurd (natRepr_head_digit _ _ _ hr) (h1 ▸ by decide)
  · rw [if_neg ha, if_neg hb] at h
    have := natRepr_inj h
    omega

theorem append_sep_inj {sep : Char} :
    ∀ {A B X Y : List Char}, sep ∉ A → sep ∉ B → A ++ sep :: X = B ++ sep :: Y →
      A = B ∧ X = Y := by
  intro A
  induction A with
  | nil =>
    intro B X Y _ hB h
    cases B with
    | nil => simpa using h
    | cons b bs =>
      rw [List.nil_append, List.cons_append] at h
      injection h with h1 _
      exact absurd (h1 ▸ List.mem_cons_self b bs) hB
  | cons a as ih =>
    intro B X Y hA hB h
    cases B with
    | nil =>
      rw [List.nil_append, List.cons_append] at h
      injection h with h1 _
      exact absurd (h1.symm ▸ List.mem_cons_self a as) hA
    | cons b bs =>
      rw [List.cons_append, List.cons_append] at h
      injection h with h1 h2
      have hA2 : sep ∉ as := fun hm => hA (List.mem_cons_of_mem a hm)
      have hB2 : sep ∉ bs := fun hm => hB (List.mem_cons_of_mem b hm)
      obtain ⟨e1, e2⟩ := ih hA2 hB2 h2
      exact ⟨by rw [h1, e1], e2⟩

theorem escapePy_quote_not_mem {s : List Char} (h : '\'' ∉ s) : '\'' ∉ escapePy s := by
  induction s with
  | nil => simp [escapePy]
  | cons c cs ih =>
    have hc : c ≠ '\'' := fun he => h (he ▸ List.mem_cons_self c cs)
    have hcs : '\'' ∉ cs := fun hm => h (List.mem_cons_of_mem c hm)
    by_cases hb : c = '\\'
    · subst hb
      simp [escapePy, ih hcs]
    · simp [escapePy, hb, hc, ih hcs]
      exact fun he => hc he.symm

theorem escapePy_inj :
    ∀ {s t : List Char}, '\'' ∉ s → '\'' ∉ t → escapePy s = escapePy t → s = t := by
  intro s
  induction s with
  | nil =>
    intro t _ ht h
    cases t with
    | nil => rfl
    | cons d ds =>
      exfalso
      have hd : d ≠ '\'' := fun he => ht (he ▸ List.mem_cons_self d ds)
      by_cases hb : d = '\\' <;> simp [escapePy, hb, hd] at h
  | cons c cs ih =>
    intro t hs ht h
    have hc : c ≠ '\'' := fun he => hs (he ▸ List.mem_cons_self c cs)
    have hcs : '\'' ∉ cs := fun hm => hs (List.mem_cons_of_mem c hm)
    cases t with
    | nil =>
      exfalso
      by_cases hb : c = '\\' <;> simp [escapePy, hb, hc] at h
    | cons d ds =>
      have hd : d ≠ '\'' := fun he => ht (he ▸ List.mem_cons_self d ds)
      have hds : '\'' ∉ ds := fun hm => ht (List.mem_cons_of_mem d hm)
      by_cases hb : c = '\\' <;> by_cases hb2 : d = '\\'
      · subst hb; subst hb2
        simp [escapePy] at h
        rw [ih hcs hds h]
      · subst hb
        simp [escapePy, hb2, hd] at h
        exact absurd h.1.symm hb2
      · subst hb2
        simp [escapePy, hb, hc] at h
      · simp [escapePy, hb, hc, hb2, hd] at h
        rw [h.1, ih hcs hds h.2]

theorem pyReprStr_append_inj {u v rest rest2 : List Char}
    (hu : '\'' ∉ u) (hv : '\'' ∉ v)
    (h : pyReprStr u ++ rest = pyReprStr v ++ rest2) : u = v ∧ rest = rest2 := by
  unfold pyReprStr at h
  simp only [List.cons_append, List.append_assoc, List.singleton_append] at h
  injection h with _ h2
  obtain ⟨e1, e2⟩ := append_sep_inj (escapePy_quote_not_mem hu) (escapePy_quote_not_mem hv) h2
  exact ⟨escapePy_inj hu hv e1, e2⟩

theorem joinComma_reprStr_inj :
    ∀ (l l2 : List (List Char)), (∀ w ∈ l, '\'' ∉ w) → (∀ w ∈ l2, '\'' ∉ w) →
      joinComma (l.map pyReprStr) = joinComma (l2.map pyReprStr) → l = l2 := by
  intro l
  induction l with
  | nil =>
    intro l2 _ _ heq
    cases l2 with
    | nil => rfl
    | cons v vs =>
      exfalso
      cases vs <;> simp [joinComma, pyReprStr] at heq
  | cons w ws ih =>
    intro l2 hl hl2 heq
    cases l2 with
    | nil =>
      exfalso
      cases ws <;> simp [joinComma, pyReprStr] at heq
    | cons v vs =>
      have hw : '\'' ∉ w := hl w (List.mem_cons_self w ws)
      have hv : '\'' ∉ v := hl2 v (List.mem_cons_self v vs)
      cases ws with
      | nil =>
        cases vs with
        | nil =>
          simp only [List.map_cons, List.map_nil, joinComma] at heq
          obtain ⟨e1, _⟩ := pyReprStr_append_inj hw hv
            (by rw [List.append_nil, List.append_nil]; exact heq)
          rw [e1]
        | cons v2 vs2 =>
          exfalso
          simp only [List.map_cons, List.map_nil, joinComma] at heq
          obtain ⟨_, e2⟩ := pyReprStr_append_inj hw hv
            (show pyReprStr w ++ []
                = pyReprStr v ++ ',' :: ' ' :: joinComma (List.map pyReprStr (v2 :: vs2)) by
              rw [List.append_nil]; exact heq)
          exact absurd e2 (by simp)
      | cons w2 ws2 =>
        cases vs with
        | nil =>
          exfalso
          simp only [List.map_cons, List.map_nil, joinComma] at heq
          obtain ⟨_, e2⟩ := pyReprStr_append_inj hw hv
            (show pyReprStr w ++ ',' :: ' ' :: joinComma (List.map pyReprStr (w2 :: ws2))
                = pyReprStr v ++ [] by
              rw [List.append_nil]; exact heq)
          exact absurd e2 (by simp)
        | cons v2 vs2 =>
          simp only [List.map_cons, joinComma] at heq
          obtain ⟨e1, e2⟩ := pyReprStr_append_inj hw hv heq
          injection e2 with _ e3
          injection e3 with _ e4
          have hws : ∀ x ∈ w2 :: ws2, '\'' ∉ x := fun x hx => hl x (List.mem_cons_of_mem w hx)
          have hvs : ∀ x ∈ v2 :: vs2, '\'' ∉ x := fun x hx => hl2 x (List.mem_cons_of_mem v hx)
          rw [e1, ih (v2 :: vs2) hws hvs e4]

theorem pyReprList_inj {l l2 : List (List Char)}
    (hl : ∀ w ∈ l, '\'' ∉ w) (hl2 : ∀ w ∈ l2, '\'' ∉ w)
    (h : pyReprList l = pyReprList l2) : l = l2 := by
  unfold pyReprList at h
  injection h with _ h1
  have h2 : (joinComma (l.map pyReprStr)).reverse = (joinComma (l2.map pyReprStr)).reverse := by
    have := congrArg List.reverse h1
    simpa using this
  exact joinComma_reprStr_inj l l2 hl hl2 (List.reverse_injective h2)

theorem sortStrings_eq_of_perm {v v2 : List (List Char)} (h : v.Perm v2) :
    sortStrings v = sortStrings v2 :=
  List.eq_of_perm_of_sorted
    ((List.perm_insertionSort _ v).trans (h.trans (List.perm_insertionSort _ v2).symm))
    (List.sorted_insertionSort _ v) (List.sorted_insertionSort _ v2)

theorem count_set_lt {α : Type} [DecidableEq α] :
    ∀ (v : List α) (i : Nat) (h : i < v.length) (w2 : α),
      w2 ≠ v[i] → (v.set i w2).count v[i] < v.count v[i] := by
  intro v
  induction v with
  | nil => intro i h; simp at h
  | cons a t ih =>
    intro i h w2 hne
    cases i with
    | zero =>
      simp only [List.getElem_cons_zero] at hne ⊢
      rw [List.set_cons_zero, List.count_cons_self, List.count_cons_of_ne (Ne.symm hne)]
      omega
    | succ j =>
      have hj : j < t.length := by simpa using h
      simp only [List.getElem_cons_succ] at hne ⊢
      rw [List.set_cons_succ]
      rcases eq_or_ne (t[j]) a with he | he
      · rw [← he, List.count_cons_self, List.count_cons_self]
        have := ih j hj w2 hne
        omega
      · rw [List.count_cons_of_ne he, List.count_cons_of_ne he]
        exact ih j hj w2 hne

/-- C4: the canonical cache-key string is permutation-invariant in the
vocabulary, and changes whenever the difficulty, the content type, or any
single vocabulary element changes.  The element-change part is proved for
words free of the quote character, where the modelled Python `repr`
coincides exactly with CPython; MD5 hashing, omitted from the model, maps
equal canonical strings to equal digests. -/
theorem cache_key_spec :
    (∀ (v v2 : List (List Char)) (d : Int) (c : List Char), v.Perm v2 →
      generate_cache_key v d c = generate_cache_key v2 d c) ∧
    (∀ (v : List (List Char)) (d d2 : Int) (c : List Char), d ≠ d2 →
      generate_cache_key v d c ≠ generate_cache_key v d2 c) ∧
    (∀ (v : List (List Char)) (d : Int) (c c2 : List Char), c ≠ c2 →
      generate_cache_key v d c ≠ generate_cache_key v d c2) ∧
    (∀ (v : List (List Char)) (d : Int) (c : List Char) (i : Nat) (hi : i < v.length)
      (w2 : List Char), (∀ w ∈ v, '\'' ∉ w) → '\'' ∉ w2 → w2 ≠ v[i] →
      generate_cache_key (v.set i w2) d c ≠ generate_cache_key v d c) := by
  refine ⟨?_, ?_, ?_, ?_⟩
  · intro v v2 d c hp
    unfold generate_cache_key
    rw [sortStrings_eq_of_perm hp]
  · intro v d d2 c hne hkey
    unfold generate_cache_key at hkey
    have h1 := List.append_cancel_right hkey
    have h2 := List.append_cancel_left h1
    injection h2 with _ h3
    exact hne (intRepr_inj h3)
  · intro v d c c2 hne hkey
    unfold generate_cache_key at hkey
    have h1 := List.append_cancel_left hkey
    injection h1 with _ h2
    exact hne h2
  · intro v d c i hi w2 hclean hw2 hne hkey
    unfold generate_cache_key at hkey
    have h1 := List.append_cancel_right hkey
    have hrepr := List.append_cancel_right h1
    have hcl1 : ∀ w ∈ sortStrings (v.set i w2), '\'' ∉ w := by
      intro w hw
      have hw3 := (List.mem_insertionSort _).mp hw
      rcases List.mem_or_eq_of_mem_set hw3 with h1 | h1
      · exact hclean w h1
      · exact h1 ▸ hw2
    have hcl2 : ∀ w ∈ sortStrings v, '\'' ∉ w := by
      intro w hw
      exact hclean w ((List.mem_insertionSort _).mp hw)
    have hsort : sortStrings (v.set i w2) = sortStrings v :=
      pyReprList_inj hcl1 hcl2 hrepr
    have hperm : (v.set i w2).Perm v := by
      have p1 : (sortStrings (v.set i w2)).Perm (v.set i w2) := List.perm_insertionSort _ _
      have p2 : (sortStrings (v.set i w2)).Perm v := by
        rw [hsort]
        exact List.perm_insertionSort _ _
      exact p1.symm.trans p2
    have hcount := hperm.count_eq (v[i])
    have hlt := count_set_lt v i hi w2 hne
    exact absurd hcount (Nat.ne_of_lt hlt)

/-- C4 witness: the four properties at concrete inputs. -/
theorem cache_key_spec_witness :
    generate_cache_key ["b".data, "a".data] 1 ("g".data)
      = generate_cache_key ["a".data, "b".data] 1 ("g".data) ∧
    generate_cache_key ["a".data] 1 ("g".data) ≠ generate_cache_key ["a".data] 2 ("g".data) ∧
    generate_cache_key ["a".data] 1 ("g".data) ≠ generate_cache_key ["a".data] 1 ("h".data) ∧
    generate_cache_key ((["a".data, "b".data]).set 0 ("c".data)) 1 ("g".data)
      ≠ generate_cache_key ["a".data, "b".data] 1 ("g".data) :=
  ⟨cache_key_spec.1 _ _ _ _ (by decide),
   cache_key_spec.2.1 _ _ _ _ (by decide),
   cache_key_spec.2.2.1 _ _ _ _ (by decide),
   cache_key_spec.2.2.2 ["a".data, "b".data] 1 ("g".data) 0 (by decide) ("c".data)
     (by decide) (by decide) (by decide)⟩

/-! ## The cache-write / validation ordering (C3) -/

/-- C3, counterexample: a request whose generated text fails validation
still creates a cache entry, and in the event trace the cache write
strictly precedes the validation call.  `generate_story` caches inside the
generator module before returning; `main.py` only validates afterwards. -/
theorem cache_write_without_validation_cex :
    (endpoint_generate_story [] ["cat".data] 1 ("general".data) ("bad".data) 0).2.1 =
      [("story:".data ++ generate_cache_key ["cat".data] 1 ("general".data),
        { content := "bad".data
          vocabulary_used := []
          word_count := 1
          difficulty := 1
          story_type := "general".data
          cache_key := generate_cache_key ["cat".data] 1 ("general".data)
          created_at := 0 })] ∧
    (validate ("bad".data) ["cat".data]).1 = false ∧
    (endpoint_generate_story [] ["cat".data] 1 ("general".data) ("bad".data) 0).2.2 =
      [GenEvent.cacheGet (generate_cache_key ["cat".data] 1 ("general".data)),
       GenEvent.generatorCall,
       GenEvent.cacheSet (generate_cache_key ["cat".data] 1 ("general".data)),
       GenEvent.validateCall] :=
  ⟨by decide, by with_unfolding_all decide, by decide⟩

/-- C3 as amended: on a cache miss, the endpoint always creates exactly one
new cache entry holding the freshly generated (stripped) text, and it does
so before the validation step — the trace is get, generate, cache-set,
validate — regardless of whether validation subsequently accepts the
text. -/
theorem cache_write_precedes_validation (cache : Cache) (vocab : List (List Char)) (d : Int)
    (stype gtext : List Char) (now : Int)
    (hne : vocab ≠ []) (hlen : vocab.length ≤ 20)
    (hmiss : get_cached_story cache (generate_cache_key vocab d stype) = none) :
    ∃ story : Story,
      story.content = pyStrip gtext ∧
      story.cache_key = generate_cache_key vocab d stype ∧
      (endpoint_generate_story cache vocab d stype gtext now).2.1 =
        ("story:".data ++ story.cache_key, story) :: cache ∧
      (endpoint_generate_story cache vocab d stype gtext now).2.2 =
        [GenEvent.cacheGet (generate_cache_key vocab d stype), GenEvent.generatorCall,
         GenEvent.cacheSet (generate_cache_key vocab d stype), GenEvent.validateCall] := by
  have h1 : vocab.isEmpty = false := List.isEmpty_eq_false.mpr hne
  have h2 : decide (20 < vocab.length) = false := decide_eq_false (not_lt.mpr hlen)
  refine ⟨{ content := pyStrip gtext
            vocabulary_used :=
              vocab.filter (fun w => containsSub (lowerL (pyStrip gtext)) (lowerL w))
            word_count := (pySplitWs (pyStrip gtext)).length
            difficulty := d
            story_type := stype
            cache_key := generate_cache_key vocab d stype
            created_at := now }, rfl, rfl, ?_, ?_⟩ <;>
  · unfold endpoint_generate_story generate_story
    simp only []
    rw [h1, h2, hmiss]
    rfl

/-- C3 witness: the amended theorem applied to a concrete cache miss. -/
theorem cache_write_precedes_validation_witness :
    ∃ story : Story,
      story.content = pyStrip ("bad".data) ∧
      story.cache_key = generate_cache_key ["cat".data] 1 ("general".data) ∧
      (endpoint_generate_story [] ["cat".data] 1 ("general".data) ("bad".data) 0).2.1 =
        ("story:".data ++ story.cache_key, story) :: [] ∧
      (endpoint_generate_story [] ["cat".data] 1 ("general".data) ("bad".data) 0).2.2 =
        [GenEvent.cacheGet (generate_cache_key ["cat".data] 1 ("general".data)),
         GenEvent.generatorCall,
         GenEvent.cacheSet (generate_cache_key ["cat".data] 1 ("general".data)),
         GenEvent.validateCall] :=
  cache_write_precedes_validation [] ["cat".data] 1 ("general".data) ("bad".data) 0
    (by decide) (by decide) (by decide)

end LexiLoop
